import Mathlib

/-!
A shallow embedding of the puzzle core of the Scrambled-Squares repository
(grid generation, word search, and word/path validation), together with
theorems checking the specification's claims against it.

Modelling conventions:
* JS strings are modelled as `List Char` (`Word`); `Set<string>` as a
  duplicate-free `List Word`; a 4×4 letter grid as `List (List Char)`.
* JS numbers used as array indices are `Int` where the source can produce
  negative values (neighbour offsets, client-supplied positions), `Nat`
  where it cannot; `arr[i]` returning `undefined` is `Option`.
* The `Math.random()` draws of the generators are explicit input streams
  (a list of shuffled letter arrangements, a list of candidate grids, a
  rational draw for the weighted sampler), so every function is pure.
* The recursive word search carries its fuel explicitly; the source
  recursion depth is bounded by the 16 grid cells, and `findValidWords`
  starts every search with fuel 16, which the source depth never exceeds.
-/

/-- JS string, modelled as its list of characters. -/
abbrev Word := List Char

/-- `word.toUpperCase()` (ASCII case mapping, as used on A–Z grid letters). -/
def toUpperW (w : Word) : Word := w.map Char.toUpper

/-- `word.trim()`: leading and trailing whitespace removed. -/
def trimW (w : Word) : Word :=
  ((w.dropWhile Char.isWhitespace).reverse.dropWhile Char.isWhitespace).reverse

/-- `grid[r]?.[c]` for natural indices: `none` models `undefined`. -/
def cellOpt (grid : List (List Char)) (r c : Nat) : Option Char :=
  (grid[r]?).bind (fun row => row[c]?)

/-- `grid[r]?.[c]` for possibly negative (client-supplied) indices. -/
def cellOptI (grid : List (List Char)) (r c : Int) : Option Char :=
  if 0 ≤ r ∧ 0 ≤ c then cellOpt grid r.toNat c.toNat else none

/-! ### src/server/core/grid.ts — `GridGenerator` -/

/-- `GridGenerator.isValidWord`: at least 3 letters and in the Scrabble set.
The dictionary (loaded from `data/scrabble.txt`, a data file outside the
sources) is an explicit parameter. -/
def isValidWord (scrabbleWords : List Word) (word : Word) : Bool :=
  3 ≤ word.length && scrabbleWords.contains (toUpperW word)

/-- `validWords.add(newWord)` on the JS `Set`, keeping the model list
duplicate-free so its length is the set's `size`. -/
def addWord (validWords : List Word) (w : Word) : List Word :=
  if validWords.contains w then validWords else validWords ++ [w]

/-- The neighbour offsets enumerated by the `i`/`j` loops of
`findWordsFromCell` (`-1..1 × -1..1` minus `(0,0)`, in loop order). -/
def offsets : List (Int × Int) :=
  [(-1,-1),(-1,0),(-1,1),(0,-1),(0,1),(1,-1),(1,0),(1,1)]

/-- `GridGenerator.findWordsFromCell`: depth-first backtracking search.
The mutable `visited` matrix and `validWords` set are threaded as explicit
state; mutation of `visitedRow[col]` becomes `List.set`.  `GRID_SIZE = 4`. -/
def findWordsFromCell (scrabbleWords : List Word) (grid : List (List Char)) :
    Nat → Int → Int → Word → List (List Bool) → List Word →
    List (List Bool) × List Word
  | 0, _, _, _, visited, validWords => (visited, validWords)
  | fuel+1, row, col, currentWord, visited, validWords =>
    if row < 0 || 4 ≤ row || col < 0 || 4 ≤ col then (visited, validWords)
    else
      match grid[row.toNat]?, visited[row.toNat]? with
      | some currentRow, some visitedRow =>
        match currentRow[col.toNat]? with
        | none => (visited, validWords)
        | some cell =>
          if visitedRow.getD col.toNat false then (visited, validWords)
          else
            let visited1 := visited.set row.toNat (visitedRow.set col.toNat true)
            let newWord := currentWord ++ [cell]
            let validWords1 :=
              if 3 ≤ newWord.length && isValidWord scrabbleWords newWord then
                addWord validWords newWord
              else validWords
            let st2 :=
              offsets.foldl (fun (st : List (List Bool) × List Word) off =>
                let newRow := row + off.1
                let newCol := col + off.2
                if (0 ≤ newRow && newRow < 4 && 0 ≤ newCol && newCol < 4) &&
                   (st.1[newRow.toNat]?).isSome &&
                   (cellOpt grid newRow.toNat newCol.toNat).isSome &&
                   !((st.1.getD newRow.toNat []).getD newCol.toNat false) then
                  findWordsFromCell scrabbleWords grid fuel newRow newCol newWord st.1 st.2
                else st) (visited1, validWords1)
            (st2.1.set row.toNat ((st2.1.getD row.toNat []).set col.toNat false), st2.2)
      | _, _ => (visited, validWords)
termination_by structural fuel => fuel

/-- `GridGenerator.findValidWords`: run the search from every populated cell,
sharing one visited matrix and one accumulating word set. -/
def findValidWords (scrabbleWords : List Word) (grid : List (List Char)) : List Word :=
  let visited0 : List (List Bool) := List.replicate 4 (List.replicate 4 false)
  (((List.range 4).foldl (fun st row =>
    (List.range 4).foldl (fun st col =>
      if (cellOpt grid row col).isSome then
        findWordsFromCell scrabbleWords grid 16 (Int.ofNat row) (Int.ofNat col) [] st.1 st.2
      else st) st) ((visited0, []) : List (List Bool) × List Word))).2

/-- `GridGenerator.isValidPlacement`: placing `letter` at `(row, col)` must
not complete a horizontal or vertical run of three identical letters.
The source's `row < 0 || col < 0` guards are vacuous for `Nat` indices. -/
def isValidPlacement (grid : List (List Char)) (row col : Nat) (letter : Char) : Bool :=
  if grid.length ≤ row then false
  else
    match grid[row]? with
    | none => false
    | some currentRow =>
      if currentRow.length ≤ col then false
      else
        (!(2 ≤ col && (currentRow[col-2]? == some letter)
                   && (currentRow[col-1]? == some letter))) &&
        (!(2 ≤ row && (cellOpt grid (row-2) col == some letter)
                   && (cellOpt grid (row-1) col == some letter)))

/-- Write `v` into cell `(r, c)` of the grid (`row[j] = letter`). -/
def set2c (grid : List (List Char)) (r c : Nat) (v : Char) : List (List Char) :=
  grid.set r ((grid.getD r []).set c v)

/-- One placement attempt of `placeLettersInGrid`'s inner `i`/`j` loops:
letters are written row-major into cell `idx = i*4+j`, aborting (`none`)
as soon as `isValidPlacement` fails.  A missing letter (`!letter`, only
possible when fewer than 16 letters are supplied) skips the cell, leaving
the grid's prefill. -/
def placeAttemptAux (letters : List Char) : Nat → Nat → List (List Char) →
    Option (List (List Char))
  | _, 0, grid => some grid
  | idx, n+1, grid =>
    match letters[idx]? with
    | none => placeAttemptAux letters (idx+1) n grid
    | some letter =>
      if isValidPlacement grid (idx / 4) (idx % 4) letter then
        placeAttemptAux letters (idx+1) n (set2c grid (idx / 4) (idx % 4) letter)
      else none
termination_by structural _ n => n

/-- The grid as initialised by `generateGrid` (every cell prefilled `'A'`,
which is also what the reset between attempts restores). -/
def emptyGrid : List (List Char) := List.replicate 4 (List.replicate 4 'A')

/-- One full placement attempt over the 16 cells. -/
def placeAttempt (letters : List Char) : Option (List (List Char)) :=
  placeAttemptAux letters 0 16 emptyGrid

/-- `GridGenerator.placeLettersInGrid`: try shuffled arrangements until one
places validly.  Each element of `arrangements` is the letter order of one
attempt; the source's bounded reshuffle loop plus its recursive resampling
fallback both just move to the next arrangement, so the stream models the
whole retry behaviour.  `none` means the (in the source: unbounded) retry
never succeeded within the supplied draws. -/
def placeLettersInGrid : List (List Char) → Option (List (List Char))
  | [] => none
  | letters :: rest =>
    match placeAttempt letters with
    | some grid => some grid
    | none => placeLettersInGrid rest

/-- `GridGenerator.generateGrid`: sampling plus placement; the sampled and
shuffled letter arrangements are the explicit randomness stream. -/
def generateGrid (arrangements : List (List Char)) : Option (List (List Char)) :=
  placeLettersInGrid arrangements

/-- `GridGenerator.generateDailyPuzzle`: regenerate while the found-word set
has fewer than 10 words, else store (modelled: return) grid and word set.
Each element of `draws` is the grid produced by one `generateGrid` call;
the source recurses with no cap, so an exhausted stream (`none`) stands
for a run of draws on which the source never returns. -/
def generateDailyPuzzle (scrabbleWords : List Word) :
    List (List (List Char)) → Option (List (List Char) × List Word)
  | [] => none
  | letters :: rest =>
    -- the source's `validWords` local is written out in full below
    if (findValidWords scrabbleWords letters).length < 10 then
      generateDailyPuzzle scrabbleWords rest
    else some (letters, findValidWords scrabbleWords letters)

/-- `GridGenerator.weightedRandomChoice`'s subtraction loop: subtract each
weight from the running remainder, returning the first item that makes it
non-positive.  (`items[i]` is never `undefined` for a list, so the
source's `continue` guard is vacuous.) -/
def wrcLoop : List Char → (Char → ℚ) → ℚ → Option Char
  | [], _, _ => none
  | item :: rest, weightFn, random =>
    let random' := random - weightFn item
    if random' ≤ 0 then some item else wrcLoop rest weightFn random'

/-- `GridGenerator.weightedRandomChoice`.  `rand` is the `Math.random()`
draw; weights are exact rationals.  A thrown `Error` is `.error`. -/
def weightedRandomChoice (items : List Char) (weightFn : Char → ℚ) (rand : ℚ) :
    Except String Char :=
  if items.isEmpty then .error "Cannot make a choice from an empty array"
  else
    let totalWeight := (items.map weightFn).sum
    match wrcLoop items weightFn (rand * totalWeight) with
    | some item => .ok item
    | none =>
      match items with
      | [] => .error "No valid items found"
      | firstItem :: _ => .ok firstItem

/-! ### src/shared/types/api.ts -/

/-- `GridPosition` from the shared API types; client-supplied, so the
coordinates may be any integers. -/
structure GridPosition where
  row : Int
  col : Int
deriving DecidableEq, Repr

/-- `ValidateWordResponse` (scores in both validators are integral). -/
structure ValidateWordResponse where
  isValid : Bool
  score : Nat
  message : String
deriving DecidableEq, Repr

/-! ### src/server/core/dictionary.ts — `DictionaryService` -/

namespace CoreDict

/-- The path loop of `DictionaryService.validateWord`: bounds-check each
position, look up its letter, and concatenate. -/
def buildPathWord (grid : List (List Char)) : List GridPosition → Except String Word
  | [] => .ok []
  | pos :: rest =>
    if pos.row < 0 || 4 ≤ pos.row || pos.col < 0 || 4 ≤ pos.col then
      .error "Invalid path position"
    else
      match cellOptI grid pos.row pos.col with
      | none => .error "Invalid grid position"
      | some letter => (buildPathWord grid rest).map (fun w => letter :: w)

/-- `DictionaryService.validateWord` of `src/server/core/dictionary.ts`.
The Scrabble set (from `data/scrabble.txt`) and the stored daily grid and
daily word set (fetched from `GameStorage`) are explicit parameters;
`none` models an unavailable daily puzzle. -/
def validateWord (scrabbleWords : List Word) (dailyGrid : Option (List (List Char)))
    (dailyWords : Option (List Word)) (word : Word) (path : List GridPosition) :
    ValidateWordResponse :=
  -- the source's `upperWord` local is written out in full below
  if (toUpperW (trimW word)).length < 3 then
    ⟨false, 0, "Word must be at least 3 letters long"⟩
  else if !(scrabbleWords.contains (toUpperW (trimW word))) then
    ⟨false, 0, "Not a valid word"⟩
  else
    match dailyGrid with
    | none => ⟨false, 0, "Daily puzzle not available"⟩
    | some grid =>
      match dailyWords with
      | none => ⟨false, 0, "Daily puzzle not available"⟩
      | some validWords =>
        if !(validWords.contains (toUpperW (trimW word))) then
          ⟨false, 0, "Word not possible in current grid"⟩
        else
          match buildPathWord grid path with
          | .error msg => ⟨false, 0, msg⟩
          | .ok pathWord =>
            if toUpperW pathWord ≠ toUpperW (trimW word) then
              ⟨false, 0, "Path does not match word"⟩
            else
              ⟨true, 10 + ((toUpperW (trimW word)).length - 3) * 5, "Valid word!"⟩

end CoreDict

/-! ### src/unnamed/part_002 — the Devvit `DictionaryService` -/

namespace DevvitDict

/-- The embedded TWL06 word list of `src/unnamed/part_002`. -/
def TWL06_WORDS : List Word :=
  (["AAH", "AAL", "AAS", "ABA", "ABO", "ABS", "ABY", "ACE", "ACT", "ADD",
    "ADO", "ADS", "ADZ", "AFF", "AFT", "AGA", "AGE", "AGO", "AGS", "AHA",
    "AHI", "AHS", "AID", "AIL", "AIM", "AIN", "AIR", "AIS", "AIT", "ALA",
    "ALB", "ALE",
    "AALS", "ABAC", "ABAS", "ABBA", "ABBE", "ABED", "ABET", "ABLE", "ABLY",
    "ABOS", "ABRI", "ABUT", "ABYE", "ABYS", "ACED", "ACES", "ACHE", "ACHY",
    "ACID", "ACME", "ACNE", "ACRE", "ACTA", "ACTS", "ACYL", "ADDS", "ADIT",
    "ADOS",
    "AAHED", "AALII", "ABACA", "ABACI", "ABACK", "ABAFT", "ABAMP", "ABASE",
    "ABASH", "ABATE", "ABBEY", "ABBES", "ABETS", "ABIDE", "ABLED", "ABLER",
    "ABLES", "ABODE", "ABORT", "ABOUT", "ABOVE", "ABRIS", "ABUSE", "ABUTS",
    "AARDVARK", "ABANDON", "ABALONE", "ABASEDLY", "ABASHING", "ABATTOIR",
    "ABBOTCY", "ABDICATE", "ABDOMEN", "ABDUCTED", "ABERRANT", "ABETMENT",
    "ABEYANCE", "ABHORRED", "ABIDANCE", "ABJECTLY", "ABJURING", "ABLATIVE",
    "ABLUTION", "ABNEGATE", "ABODANCE", "ABOLISH", "ABOMINATE", "ABORTION",
    "ABOUNDING", "ABRASION", "ABRIDGED", "ABROGATED", "ABSCESSED",
    "ABSCISING", "ABSCONDER", "ABSENTLY", "ABSINTH", "ABSOLUTE", "ABSORBED",
    "ABSTAIN"].map String.data)

/-- `DictionaryService.isValidGridPosition`: within the 4×4 grid. -/
def isValidGridPosition (pos : GridPosition) : Bool :=
  0 ≤ pos.row && pos.row < 4 && 0 ≤ pos.col && pos.col < 4

/-- `DictionaryService.arePositionsAdjacent`: differ by at most 1 in each
coordinate and are not the same cell. -/
def arePositionsAdjacent (pos1 pos2 : GridPosition) : Bool :=
  let rowDiff := (pos1.row - pos2.row).natAbs
  let colDiff := (pos1.col - pos2.col).natAbs
  rowDiff ≤ 1 && colDiff ≤ 1 && (rowDiff ≠ 0 || colDiff ≠ 0)

/-- The `i > 0` iterations of `validatePath`'s loop: each position must be
valid and adjacent to its predecessor. -/
def validatePathAux : GridPosition → List GridPosition → Bool
  | _, [] => true
  | prev, pos :: rest =>
    isValidGridPosition pos && arePositionsAdjacent prev pos && validatePathAux pos rest

/-- `DictionaryService.validatePath` of `src/unnamed/part_002`: non-empty
path and word, every position in bounds, consecutive positions adjacent.
(The grid letters and the word's spelling are not consulted.) -/
def validatePath (path : List GridPosition) (word : Word) : Bool :=
  if path.isEmpty || word.isEmpty then false
  else
    match path with
    | [] => false
    | pos :: rest => isValidGridPosition pos && validatePathAux pos rest

/-- `DictionaryService.validateWord` of `src/unnamed/part_002`.  `words` is
the dictionary the service initialised (the embedded TWL06 list, or a
Redis-cached copy). -/
def validateWord (words : List Word) (word : Word) (path : List GridPosition) :
    ValidateWordResponse :=
  -- the source's `upperWord` and `score` locals are written out in full below
  if (toUpperW (trimW word)).length < 3 then
    ⟨false, 0, "Word must be at least 3 letters long"⟩
  else if 15 < (toUpperW (trimW word)).length then
    ⟨false, 0, "Word is too long"⟩
  else if !(words.contains (toUpperW (trimW word))) then
    ⟨false, 0, "Not a valid word"⟩
  else if !(validatePath path (toUpperW (trimW word))) then
    ⟨false, 0, "Invalid word path"⟩
  else
    ⟨true, 2 ^ ((toUpperW (trimW word)).length - 2),
     "Valid word! +" ++ toString (2 ^ ((toUpperW (trimW word)).length - 2)) ++ " points"⟩

end DevvitDict

/-! ### Specification-level notions (spec §3 data model, glossary) -/

/-- 8-directional adjacency of the glossary: the cells differ by at most 1
in each of row and column and are not the same cell. -/
def adjacent8 (p q : GridPosition) : Bool :=
  (p.row - q.row).natAbs ≤ 1 && (p.col - q.col).natAbs ≤ 1 && !(decide (p = q))

/-- Position inside the 4×4 grid. -/
def inGrid4 (p : GridPosition) : Bool :=
  0 ≤ p.row && p.row < 4 && 0 ≤ p.col && p.col < 4

/-- The path's cells, in order, spell `w` in `grid` (every cell present). -/
def spellsOut (grid : List (List Char)) (path : List GridPosition) (w : Word) : Prop :=
  path.map (fun p => cellOptI grid p.row p.col) = w.map some

/-- A valid path for `w` in `grid` (spec §3 `Path` + §8): non-empty,
pairwise-distinct in-bounds cells, consecutive cells 8-adjacent, spelling
`w`. -/
def goodPath (grid : List (List Char)) (path : List GridPosition) (w : Word) : Prop :=
  path ≠ [] ∧ path.Nodup ∧
  List.Chain' (fun p q => adjacent8 p q = true) path ∧
  (∀ p ∈ path, inGrid4 p = true) ∧ spellsOut grid path w

/-- The property claimed of every member of a puzzle's word set: dictionary
membership (after uppercasing, as the source checks it), length ≥ 3, and
reachability along some valid path. -/
def wordOK (scrabbleWords : List Word) (grid : List (List Char)) (w : Word) : Prop :=
  scrabbleWords.contains (toUpperW w) = true ∧ 3 ≤ w.length ∧ ∃ path, goodPath grid path w

/-- Every word of the (partial) word set satisfies `wordOK`. -/
def allOK (scrabbleWords : List Word) (grid : List (List Char)) (ws : List Word) : Prop :=
  ∀ w ∈ ws, wordOK scrabbleWords grid w

/-- Well-formed 4×4 visited matrix. -/
def visWF (vis : List (List Bool)) : Prop :=
  vis.length = 4 ∧ ∀ (i : Nat) (rowB : List Bool), vis[i]? = some rowB → rowB.length = 4

/-- The visited flag of cell `p` (`visited[p.row][p.col]`, `false` when the
access is out of range, matching falsy `undefined`). -/
def marked (vis : List (List Bool)) (p : GridPosition) : Bool :=
  (vis.getD p.row.toNat []).getD p.col.toNat false

/-- Invariant tying a call `findWordsFromCell … row col currentWord visited …`
to the path walked so far: `pre` is a valid partial path spelling
`currentWord`, its cells are exactly marked in `visited`, and its last cell
(if any) is 8-adjacent to the cell `(row, col)` about to be visited. -/
def PartialPath (grid : List (List Char)) (vis : List (List Bool))
    (pre : List GridPosition) (w : Word) (row col : Int) : Prop :=
  spellsOut grid pre w ∧ pre.Nodup ∧
  List.Chain' (fun p q => adjacent8 p q = true) pre ∧
  (∀ p ∈ pre, inGrid4 p = true) ∧
  (∀ p ∈ pre, marked vis p = true) ∧
  (pre = [] ∨ ∃ l, pre.getLast? = some l ∧ adjacent8 l ⟨row, col⟩ = true)

/-- Well-formed 4×4 letter grid (every cell populated). -/
def grid4WF (g : List (List Char)) : Prop :=
  g.length = 4 ∧ ∀ (i : Nat) (rowL : List Char), g[i]? = some rowL → rowL.length = 4

/-- No triplet whose *last* cell (in row-major placement order) lies before
flat index `k`: the placement loop's partial invariant.  A horizontal
triplet ending at `(r, c)` occupies `(r, c-2), (r, c-1), (r, c)`; a
vertical one `(r-2, c), (r-1, c), (r, c)`. -/
def tripletFreeBelow (g : List (List Char)) (k : Nat) : Prop :=
  ∀ r c : Nat, r < 4 → c < 4 → 4*r+c < k →
    (2 ≤ c → ¬(cellOpt g r (c-2) = cellOpt g r c ∧ cellOpt g r (c-1) = cellOpt g r c)) ∧
    (2 ≤ r → ¬(cellOpt g (r-2) c = cellOpt g r c ∧ cellOpt g (r-1) c = cellOpt g r c))

/-! ## Helper lemmas -/

section ListHelpers

variable {α : Type _}

lemma list_set_of_getElem? (l : List α) (i : Nat) (x : α) (h : l[i]? = some x) :
    l.set i x = l := by
  ext1 j
  rcases eq_or_ne i j with rfl | hne
  · rw [List.getElem?_set_self (List.getElem?_eq_some.mp h).1, h]
  · rw [List.getElem?_set_ne hne]

lemma list_getD_set_self (l : List α) (i : Nat) (x d : α) (h : i < l.length) :
    (l.set i x).getD i d = x := by
  rw [List.getD_eq_getElem?_getD, List.getElem?_set_self h, Option.getD_some]

lemma list_getD_set_ne (l : List α) (i j : Nat) (x d : α) (h : i ≠ j) :
    (l.set i x).getD j d = l.getD j d := by
  rw [List.getD_eq_getElem?_getD, List.getElem?_set_ne h, ← List.getD_eq_getElem?_getD]

lemma list_getD_of_getElem? (l : List α) (i : Nat) (x d : α) (h : l[i]? = some x) :
    l.getD i d = x := by
  rw [List.getD_eq_getElem?_getD, h, Option.getD_some]

lemma list_set_getD_id (l : List α) (i : Nat) (d : α) (h : l.getD i d = d) :
    l.set i d = l := by
  induction l generalizing i with
  | nil => rfl
  | cons a t ih =>
    cases i with
    | zero => simp only [List.getD_cons_zero] at h; simp [h]
    | succ n => simp only [List.getD_cons_succ] at h
                simp [List.set_cons_succ, ih n h]

lemma list_foldl_inv {σ : Type _} (P : σ → Prop) (f : σ → α → σ) :
    ∀ (l : List α) (s : σ), P s → (∀ s a, a ∈ l → P s → P (f s a)) →
      P (l.foldl f s)
  | [], _, hs, _ => hs
  | a :: l, s, hs, hf =>
    list_foldl_inv P f l (f s a) (hf s a (List.mem_cons_self a l) hs)
      (fun s' a' ha' hs' => hf s' a' (List.mem_cons_of_mem a ha') hs')

end ListHelpers

/-! ## The weighted sampler (claim C9) -/

lemma wrcLoop_mem : ∀ (items : List Char) (weightFn : Char → ℚ) (r : ℚ) (x : Char),
    wrcLoop items weightFn r = some x → x ∈ items
  | [], _, _, _, h => by cases h
  | a :: t, weightFn, r, x, h => by
    by_cases h1 : r - weightFn a ≤ 0
    · have : some a = some x := by rw [← h]; simp [wrcLoop, h1]
      cases this
      exact List.mem_cons_self _ _
    · have h' : wrcLoop t weightFn (r - weightFn a) = some x := by
        rw [← h]; simp [wrcLoop, h1]
      exact List.mem_cons_of_mem _ (wrcLoop_mem t weightFn _ x h')

/-- **C9**: `weightedRandomChoice` treats an empty pool as an error (the
thrown `SamplerExhausted` condition) and on a non-empty pool always
returns some member of the pool. -/
theorem weightedRandomChoice_total (items : List Char) (weightFn : Char → ℚ) (rand : ℚ) :
    (items = [] → weightedRandomChoice items weightFn rand
        = .error "Cannot make a choice from an empty array")
    ∧ (items ≠ [] → ∃ x ∈ items, weightedRandomChoice items weightFn rand = .ok x) := by
  constructor
  · rintro rfl; rfl
  · intro hne
    match items, hne with
    | a :: t, _ =>
      have key : weightedRandomChoice (a :: t) weightFn rand =
          match wrcLoop (a :: t) weightFn (rand * ((a :: t).map weightFn).sum) with
          | some item => Except.ok item
          | none => Except.ok a := rfl
      cases hw : wrcLoop (a :: t) weightFn (rand * ((a :: t).map weightFn).sum) with
      | some x =>
        exact ⟨x, wrcLoop_mem _ _ _ _ hw, by rw [key, hw]⟩
      | none =>
        exact ⟨a, List.mem_cons_self _ _, by rw [key, hw]⟩

/-- Witness for C9 at concrete inputs. -/
theorem weightedRandomChoice_total_witness :
    (weightedRandomChoice [] (fun _ => 1) 0
        = .error "Cannot make a choice from an empty array")
    ∧ ∃ x ∈ ['A'], weightedRandomChoice ['A'] (fun _ => 1) 0 = .ok x :=
  ⟨(weightedRandomChoice_total [] (fun _ => 1) 0).1 rfl,
   (weightedRandomChoice_total ['A'] (fun _ => 1) 0).2 (by decide)⟩

/-! ## The two submission validators (claims C2, C3, C4, C10) -/

lemma arePositionsAdjacent_irrefl (p : GridPosition) :
    DevvitDict.arePositionsAdjacent p p = false := by
  simp [DevvitDict.arePositionsAdjacent]

lemma arePositionsAdjacent_ne {p q : GridPosition}
    (h : DevvitDict.arePositionsAdjacent p q = true) : p ≠ q := by
  rintro rfl
  rw [arePositionsAdjacent_irrefl] at h
  cases h

lemma validatePathAux_chain :
    ∀ (rest : List GridPosition) (prev : GridPosition),
      DevvitDict.validatePathAux prev rest = true →
      List.Chain' (fun p q => DevvitDict.arePositionsAdjacent p q = true) (prev :: rest)
  | [], prev, _ => by simp
  | pos :: rest, prev, h => by
    unfold DevvitDict.validatePathAux at h
    simp only [Bool.and_eq_true] at h
    exact List.chain'_cons.mpr ⟨h.1.2, validatePathAux_chain rest pos h.2⟩

lemma validatePath_chain (path : List GridPosition) (w : Word)
    (h : DevvitDict.validatePath path w = true) :
    List.Chain' (fun p q => DevvitDict.arePositionsAdjacent p q = true) path := by
  match path with
  | [] => exact List.chain'_nil
  | pos :: rest =>
    unfold DevvitDict.validatePath at h
    split_ifs at h with h1
    simp only [Bool.and_eq_true] at h
    exact validatePathAux_chain rest pos h.2

lemma devvit_isValid_path {words : List Word} {word : Word} {path : List GridPosition}
    (h : (DevvitDict.validateWord words word path).isValid = true) :
    DevvitDict.validatePath path (toUpperW (trimW word)) = true := by
  unfold DevvitDict.validateWord at h
  split_ifs at h with h1 h2 h3 h4
  simp_all

/-- **C2** (amended): the Devvit validator rejects any path in which some
position is immediately repeated (a consecutive duplicate cell), because
`arePositionsAdjacent` is irreflexive; only consecutive repetitions are
checked. -/
theorem devvitValidateWord_rejects_consecutive_duplicate
    (words : List Word) (word : Word) (path : List GridPosition)
    (h : ¬ List.Chain' (fun p q : GridPosition => p ≠ q) path) :
    (DevvitDict.validateWord words word path).isValid = false := by
  cases hv : (DevvitDict.validateWord words word path).isValid
  · rfl
  · exact absurd ((validatePath_chain _ _ (devvit_isValid_path hv)).imp
      (fun _ _ hadj => arePositionsAdjacent_ne hadj)) h

/-- Witness for the amended C2 at a concrete input. -/
theorem devvitValidateWord_rejects_consecutive_duplicate_witness :
    (¬ List.Chain' (fun p q : GridPosition => p ≠ q) [⟨0,0⟩, ⟨0,0⟩]) ∧
    (DevvitDict.validateWord DevvitDict.TWL06_WORDS "AAH".data
        [⟨0,0⟩, ⟨0,0⟩]).isValid = false :=
  ⟨by simp only [List.chain'_cons, List.chain'_singleton]; decide,
   devvitValidateWord_rejects_consecutive_duplicate _ _ _
     (by simp only [List.chain'_cons, List.chain'_singleton]; decide)⟩

/-- **C2** counterexample: the path `(0,0),(0,1),(0,0)` reuses cell `(0,0)`
(it is not duplicate-free), yet the Devvit validator accepts the claimed
word `AAH` along it, because only consecutive pairs are checked and the
letters are never compared at all. -/
theorem devvitValidateWord_accepts_repeated_cell :
    (¬ List.Nodup [(⟨0,0⟩ : GridPosition), ⟨0,1⟩, ⟨0,0⟩]) ∧
    (DevvitDict.validateWord DevvitDict.TWL06_WORDS "AAH".data
        [⟨0,0⟩, ⟨0,1⟩, ⟨0,0⟩]).isValid = true := by
  exact ⟨by decide, by decide⟩

/-- **C3** (amended): the Devvit validator (`validatePath` via
`arePositionsAdjacent`) rejects every path in which some consecutive pair
of positions is not 8-adjacent; the `dictionary.ts` validator performs no
adjacency check at all (see the counterexample). -/
theorem devvitValidateWord_rejects_nonadjacent
    (words : List Word) (word : Word) (path : List GridPosition)
    (h : ¬ List.Chain' (fun p q => DevvitDict.arePositionsAdjacent p q = true) path) :
    (DevvitDict.validateWord words word path).isValid = false := by
  cases hv : (DevvitDict.validateWord words word path).isValid
  · rfl
  · exact absurd (validatePath_chain _ _ (devvit_isValid_path hv)) h

/-- Witness for the amended C3 at a concrete input. -/
theorem devvitValidateWord_rejects_nonadjacent_witness :
    (¬ List.Chain' (fun p q => DevvitDict.arePositionsAdjacent p q = true)
        [(⟨0,0⟩ : GridPosition), ⟨2,2⟩, ⟨2,3⟩]) ∧
    (DevvitDict.validateWord DevvitDict.TWL06_WORDS "AAH".data
        [⟨0,0⟩, ⟨2,2⟩, ⟨2,3⟩]).isValid = false :=
  ⟨by simp only [List.chain'_cons, List.chain'_singleton]; decide,
   devvitValidateWord_rejects_nonadjacent _ _ _
     (by simp only [List.chain'_cons, List.chain'_singleton]; decide)⟩

/-- **C3** counterexample: the server validator of `dictionary.ts` accepts
the word `CAT` along the path `(0,0),(2,2),(0,2)` although the step from
`(2,2)` to `(0,2)` jumps two rows (not 8-adjacent): it only checks bounds
and letters. -/
theorem coreValidateWord_accepts_nonadjacent_jump :
    adjacent8 ⟨2,2⟩ ⟨0,2⟩ = false ∧
    (CoreDict.validateWord ["CAT".data]
        (some [['C','A','T','S'], ['X','Y','Z','W'], ['Q','R','A','B'], ['D','E','F','G']])
        (some ["CAT".data]) "CAT".data
        [⟨0,0⟩, ⟨2,2⟩, ⟨0,2⟩]).isValid = true := by
  exact ⟨by decide, by decide⟩

/-- **C4** (amended): the submission validators do consult the Dictionary.
For the `dictionary.ts` validator, with a fixed in-bounds, letter-matching
path and a word present in the daily WordSet, the verdict equals Dictionary
membership of the claimed word — it is not independent of it.  (The
dictionary-independent step is only the internal path check.) -/
theorem coreValidateWord_verdict_tracks_dictionary
    (scrabbleWords : List Word) (grid : List (List Char)) (dailyWords : List Word)
    (word pw : Word) (path : List GridPosition)
    (hlen : 3 ≤ (toUpperW (trimW word)).length)
    (hws : dailyWords.contains (toUpperW (trimW word)) = true)
    (hpath : CoreDict.buildPathWord grid path = .ok pw)
    (hup : toUpperW pw = toUpperW (trimW word)) :
    (CoreDict.validateWord scrabbleWords (some grid) (some dailyWords) word path).isValid
      = scrabbleWords.contains (toUpperW (trimW word)) := by
  have hws' : toUpperW (trimW word) ∈ dailyWords := by simpa using hws
  cases hc : scrabbleWords.contains (toUpperW (trimW word)) with
  | false =>
    have hc' : toUpperW (trimW word) ∉ scrabbleWords := by simpa using hc
    simp [CoreDict.validateWord, hc', Nat.not_lt.mpr hlen]
  | true =>
    have hc' : toUpperW (trimW word) ∈ scrabbleWords := by simpa using hc
    simp [CoreDict.validateWord, hc', Nat.not_lt.mpr hlen, hws', hpath, hup]

/-- Witness for the amended C4 at a concrete input. -/
theorem coreValidateWord_verdict_tracks_dictionary_witness :
    (CoreDict.validateWord ["CAT".data]
        (some [['C','A','T','S'], ['X','Y','Z','W'], ['Q','R','A','B'], ['D','E','F','G']])
        (some ["CAT".data]) "CAT".data [⟨0,0⟩, ⟨0,1⟩, ⟨0,2⟩]).isValid
      = (["CAT".data] : List Word).contains (toUpperW (trimW "CAT".data)) :=
  coreValidateWord_verdict_tracks_dictionary _ _ _ _ "CAT".data _
    (by decide) (by decide) (by rfl) (by decide)

/-- **C4** counterexample: same grid, same in-bounds letter-matching path,
same claimed word and same stored WordSet, but the verdict flips with
Dictionary membership: with `CAT` in the dictionary the validator accepts,
with an empty dictionary it rejects — so the verdict is not independent of
Dictionary membership. -/
theorem coreValidateWord_depends_on_dictionary :
    (CoreDict.validateWord ["CAT".data]
        (some [['C','A','T','S'], ['X','Y','Z','W'], ['Q','R','A','B'], ['D','E','F','G']])
        (some ["CAT".data]) "CAT".data [⟨0,0⟩, ⟨0,1⟩, ⟨0,2⟩]).isValid = true ∧
    (CoreDict.validateWord []
        (some [['C','A','T','S'], ['X','Y','Z','W'], ['Q','R','A','B'], ['D','E','F','G']])
        (some ["CAT".data]) "CAT".data [⟨0,0⟩, ⟨0,1⟩, ⟨0,2⟩]).isValid = false := by
  exact ⟨by decide, by decide⟩

/-- **C10**: in `dictionary.ts`'s `validateWord`, a word absent from the
stored daily WordSet is rejected with `'Word not possible in current
grid'` even when it passes the length and Dictionary checks (whatever the
path), and any `isValid := true` verdict requires WordSet membership. -/
theorem coreValidateWord_requires_wordset
    (scrabbleWords : List Word) (grid : List (List Char)) (dailyWords : List Word)
    (word : Word) (path : List GridPosition) :
    (3 ≤ (toUpperW (trimW word)).length →
      scrabbleWords.contains (toUpperW (trimW word)) = true →
      dailyWords.contains (toUpperW (trimW word)) = false →
      CoreDict.validateWord scrabbleWords (some grid) (some dailyWords) word path
        = ⟨false, 0, "Word not possible in current grid"⟩)
    ∧ ((CoreDict.validateWord scrabbleWords (some grid) (some dailyWords) word path).isValid
          = true →
        dailyWords.contains (toUpperW (trimW word)) = true) := by
  constructor
  · intro hlen hdict hws
    have hdict' : toUpperW (trimW word) ∈ scrabbleWords := by simpa using hdict
    have hws' : toUpperW (trimW word) ∉ dailyWords := by simpa using hws
    simp [CoreDict.validateWord, hdict', hws', Nat.not_lt.mpr hlen]
  · intro h
    by_cases h1 : (toUpperW (trimW word)).length < 3
    · simp [CoreDict.validateWord, h1] at h
    by_cases h2 : toUpperW (trimW word) ∈ scrabbleWords
    · by_cases h3 : toUpperW (trimW word) ∈ dailyWords
      · simpa using h3
      · simp [CoreDict.validateWord, h1, h2, h3] at h
    · simp [CoreDict.validateWord, h1, h2] at h

/-- Witness for C10 at concrete inputs. -/
theorem coreValidateWord_requires_wordset_witness :
    (CoreDict.validateWord ["CAT".data]
        (some [['C','A','T','S'], ['X','Y','Z','W'], ['Q','R','A','B'], ['D','E','F','G']])
        (some ["DOG".data]) "CAT".data [⟨0,0⟩, ⟨0,1⟩, ⟨0,2⟩])
      = ⟨false, 0, "Word not possible in current grid"⟩ ∧
    ((CoreDict.validateWord ["CAT".data]
        (some [['C','A','T','S'], ['X','Y','Z','W'], ['Q','R','A','B'], ['D','E','F','G']])
        (some ["CAT".data]) "CAT".data [⟨0,0⟩, ⟨0,1⟩, ⟨0,2⟩]).isValid = true →
      (["CAT".data] : List Word).contains (toUpperW (trimW "CAT".data)) = true) :=
  ⟨(coreValidateWord_requires_wordset ["CAT".data]
      [['C','A','T','S'], ['X','Y','Z','W'], ['Q','R','A','B'], ['D','E','F','G']]
      ["DOG".data] "CAT".data [⟨0,0⟩, ⟨0,1⟩, ⟨0,2⟩]).1 (by decide) (by decide) (by decide),
   (coreValidateWord_requires_wordset ["CAT".data]
      [['C','A','T','S'], ['X','Y','Z','W'], ['Q','R','A','B'], ['D','E','F','G']]
      ["CAT".data] "CAT".data [⟨0,0⟩, ⟨0,1⟩, ⟨0,2⟩]).2⟩

/-! ## Puzzle assembly (claims C6, C7) -/

/-- **C6**: `generateDailyPuzzle` only ever returns (and hence stores) a
grid together with exactly its found-word set, of size at least 10; a draw
whose grid yields fewer than 10 words is skipped and generation moves on
to the next draw. -/
theorem generateDailyPuzzle_min10 :
    (∀ (scrabbleWords : List Word) (draws : List (List (List Char)))
        (grid : List (List Char)) (ws : List Word),
      generateDailyPuzzle scrabbleWords draws = some (grid, ws) →
      ws = findValidWords scrabbleWords grid ∧ 10 ≤ ws.length)
    ∧ (∀ (scrabbleWords : List Word) (grid : List (List Char))
        (rest : List (List (List Char))),
      (findValidWords scrabbleWords grid).length < 10 →
      generateDailyPuzzle scrabbleWords (grid :: rest)
        = generateDailyPuzzle scrabbleWords rest) := by
  constructor
  · intro scrabbleWords draws
    induction draws with
    | nil => intro grid ws h; cases h
    | cons g rest ih =>
      intro grid ws h
      unfold generateDailyPuzzle at h
      split_ifs at h with hlt
      · exact ih grid ws h
      · cases h
        exact ⟨rfl, Nat.not_lt.mp hlt⟩
  · intro scrabbleWords grid rest hlt
    conv_lhs => rw [generateDailyPuzzle]
    rw [if_pos hlt]

set_option maxRecDepth 100000 in
/-- Witness for C6: a 2×2 grid (all four cells mutually 8-adjacent) with a
12-word dictionary of permutations of its letters is accepted, and a
single-cell grid yielding no words is skipped. -/
theorem generateDailyPuzzle_min10_witness :
    (findValidWords
        (["CAT","CAS","CTA","CTS","ACT","AST","ATC","TAC","TAS","TCA","SAT","SCA"].map
          String.data) [['C','A'],['T','S']]
      = findValidWords
        (["CAT","CAS","CTA","CTS","ACT","AST","ATC","TAC","TAS","TCA","SAT","SCA"].map
          String.data) [['C','A'],['T','S']]
      ∧ 10 ≤ (findValidWords
        (["CAT","CAS","CTA","CTS","ACT","AST","ATC","TAC","TAS","TCA","SAT","SCA"].map
          String.data) [['C','A'],['T','S']]).length)
    ∧ generateDailyPuzzle ["CAT".data] ([['C']] :: [[['C','A'],['T','S']]])
        = generateDailyPuzzle ["CAT".data] [[['C','A'],['T','S']]] :=
  ⟨generateDailyPuzzle_min10.1
      (["CAT","CAS","CTA","CTS","ACT","AST","ATC","TAC","TAS","TCA","SAT","SCA"].map
        String.data)
      [[['C','A'],['T','S']]] [['C','A'],['T','S']] _ (by rfl),
   generateDailyPuzzle_min10.2 ["CAT".data] [['C']] [[['C','A'],['T','S']]] (by decide)⟩

/-! ## Placement and the triplet invariant (claim C5) -/

lemma cellOpt_eq_row {grid : List (List Char)} {r : Nat} {rowL : List Char}
    (h : grid[r]? = some rowL) (c : Nat) : cellOpt grid r c = rowL[c]? := by
  simp [cellOpt, h]

lemma set2c_of_getElem? {grid : List (List Char)} {r : Nat} {rowL : List Char}
    (h : grid[r]? = some rowL) (c : Nat) (v : Char) :
    set2c grid r c v = grid.set r (rowL.set c v) := by
  unfold set2c
  rw [list_getD_of_getElem? _ _ _ _ h]

lemma cellOpt_set2c_self {grid : List (List Char)} {r c : Nat} {rowL : List Char}
    (h : grid[r]? = some rowL) (hc : c < rowL.length) (v : Char) :
    cellOpt (set2c grid r c v) r c = some v := by
  have hr : r < grid.length := (List.getElem?_eq_some.mp h).1
  rw [set2c_of_getElem? h,
    cellOpt_eq_row (show (grid.set r (rowL.set c v))[r]? = some (rowL.set c v) from
      List.getElem?_set_self (by simpa using hr)),
    List.getElem?_set_self (by simpa using hc)]

lemma cellOpt_set2c_ne {grid : List (List Char)} {r c : Nat} (r' c' : Nat) (v : Char)
    (hne : ¬(r' = r ∧ c' = c)) :
    cellOpt (set2c grid r c v) r' c' = cellOpt grid r' c' := by
  rcases eq_or_ne r' r with rfl | hr
  · have hc : c ≠ c' := fun hcc => hne ⟨rfl, hcc.symm⟩
    cases hg : grid[r']? with
    | none =>
      have : grid.length ≤ r' := by
        by_contra hlt
        exact absurd (List.getElem?_eq_getElem (Nat.lt_of_not_le hlt)) (hg ▸ by simp)
      unfold set2c
      rw [List.set_eq_of_length_le this]
    | some rowL =>
      rw [set2c_of_getElem? hg,
        cellOpt_eq_row (show (grid.set r' (rowL.set c v))[r']? = some (rowL.set c v) from
          List.getElem?_set_self (by simpa using (List.getElem?_eq_some.mp hg).1)),
        cellOpt_eq_row hg, List.getElem?_set_ne hc]
  · unfold set2c cellOpt
    rw [List.getElem?_set_ne (Ne.symm hr)]

lemma grid4WF_set2c {grid : List (List Char)} (hWF : grid4WF grid) (r c : Nat) (v : Char) :
    grid4WF (set2c grid r c v) := by
  obtain ⟨hlen, hrow⟩ := hWF
  refine ⟨by simpa [set2c] using hlen, ?_⟩
  intro i rowB hi
  unfold set2c at hi
  rcases eq_or_ne i r with rfl | hne
  · cases hg : grid[i]? with
    | none =>
      have : grid.length ≤ i := by
        by_contra hlt
        exact absurd (List.getElem?_eq_getElem (Nat.lt_of_not_le hlt)) (hg ▸ by simp)
      rw [List.set_eq_of_length_le this, hg] at hi
      cases hi
    | some rowL =>
      rw [list_getD_of_getElem? _ _ _ _ hg,
        List.getElem?_set_self (by simpa using (List.getElem?_eq_some.mp hg).1)] at hi
      cases hi
      simpa using hrow i rowL hg
  · rw [List.getElem?_set_ne (Ne.symm hne)] at hi
    exact hrow i rowB hi

lemma isValidPlacement_true {grid : List (List Char)} {row col : Nat} {letter : Char}
    {rowL : List Char} (hg : grid[row]? = some rowL) (hcl : col < rowL.length)
    (h : isValidPlacement grid row col letter = true) :
    (2 ≤ col → ¬(rowL[col-2]? = some letter ∧ rowL[col-1]? = some letter)) ∧
    (2 ≤ row → ¬(cellOpt grid (row-2) col = some letter ∧ cellOpt grid (row-1) col = some letter)) := by
  have hr : row < grid.length := (List.getElem?_eq_some.mp hg).1
  rw [isValidPlacement, if_neg (Nat.not_le.mpr hr), hg] at h
  dsimp only at h
  rw [if_neg (Nat.not_le.mpr hcl)] at h
  simp only [Bool.and_eq_true, Bool.not_eq_true', Bool.and_eq_false_iff,
    decide_eq_false_iff_not, Nat.not_le, beq_eq_false_iff_ne, ne_eq] at h
  constructor
  · intro h2 hcontra
    rcases h.1 with (h' | h') | h'
    · omega
    · exact h' hcontra.1
    · exact h' hcontra.2
  · intro h2 hcontra
    rcases h.2 with (h' | h') | h'
    · omega
    · exact h' hcontra.1
    · exact h' hcontra.2

lemma tripletFreeBelow_step {grid : List (List Char)} {idx : Nat} {letter : Char}
    (hWF : grid4WF grid) (hidx : idx < 16)
    (hvp : isValidPlacement grid (idx / 4) (idx % 4) letter = true)
    (hTF : tripletFreeBelow grid idx) :
    tripletFreeBelow (set2c grid (idx / 4) (idx % 4) letter) (idx + 1) := by
  obtain ⟨hlen, hrowlen⟩ := hWF
  have hrow4 : idx / 4 < 4 := by omega
  have hcol4 : idx % 4 < 4 := by omega
  have hflat : 4 * (idx / 4) + idx % 4 = idx := Nat.div_add_mod idx 4
  obtain ⟨rowL, hg⟩ : ∃ rowL, grid[idx / 4]? = some rowL := by
    exact ⟨grid[idx / 4], List.getElem?_eq_getElem (by omega)⟩
  have hrL : rowL.length = 4 := hrowlen _ _ hg
  have hvp' := isValidPlacement_true hg (by omega) hvp
  intro r c hr4 hc4 hlt
  rcases Nat.lt_or_ge (4*r+c) idx with hlt' | hge
  · -- triplets ending strictly before the freshly placed cell are untouched
    have hne : ∀ c' : Nat, c' ≤ c → ¬(r = idx / 4 ∧ c' = idx % 4) := by
      rintro c' hc' ⟨rfl, rfl⟩; omega
    have hneV : ∀ r' : Nat, r' ≤ r → ¬(r' = idx / 4 ∧ c = idx % 4) := by
      rintro r' hr' ⟨rfl, rfl⟩; omega
    constructor
    · intro h2
      rw [cellOpt_set2c_ne r (c-2) letter (hne _ (by omega)),
        cellOpt_set2c_ne r (c-1) letter (hne _ (by omega)),
        cellOpt_set2c_ne r c letter (hne _ (by omega))]
      exact (hTF r c hr4 hc4 hlt').1 h2
    · intro h2
      rw [cellOpt_set2c_ne (r-2) c letter (hneV _ (by omega)),
        cellOpt_set2c_ne (r-1) c letter (hneV _ (by omega)),
        cellOpt_set2c_ne r c letter (hneV _ (by omega))]
      exact (hTF r c hr4 hc4 hlt').2 h2
  · -- the triplet ends exactly at the freshly placed cell
    have hreq : r = idx / 4 ∧ c = idx % 4 := by omega
    obtain ⟨rfl, rfl⟩ := hreq
    have hself : cellOpt (set2c grid (idx / 4) (idx % 4) letter) (idx / 4) (idx % 4)
        = some letter := cellOpt_set2c_self hg (by omega) letter
    constructor
    · intro h2
      rw [hself,
        cellOpt_set2c_ne (idx / 4) (idx % 4 - 2) letter (by omega),
        cellOpt_set2c_ne (idx / 4) (idx % 4 - 1) letter (by omega),
        cellOpt_eq_row hg, cellOpt_eq_row hg]
      exact hvp'.1 h2
    · intro h2
      rw [hself,
        cellOpt_set2c_ne (idx / 4 - 2) (idx % 4) letter (by omega),
        cellOpt_set2c_ne (idx / 4 - 1) (idx % 4) letter (by omega)]
      exact hvp'.2 h2

lemma placeAttemptAux_inv (letters : List Char) :
    ∀ (n idx : Nat) (grid g : List (List Char)),
      idx + n = 16 → 16 ≤ letters.length →
      grid4WF grid → tripletFreeBelow grid idx →
      placeAttemptAux letters idx n grid = some g →
      grid4WF g ∧ tripletFreeBelow g 16
  | 0, idx, grid, g, hidx, _, hWF, hTF, h => by
    cases h
    exact ⟨hWF, by rwa [show idx = 16 by omega] at hTF⟩
  | n+1, idx, grid, g, hidx, hlen, hWF, hTF, h => by
    have hidx' : idx < 16 := by omega
    obtain ⟨letter, hL⟩ : ∃ letter, letters[idx]? = some letter :=
      ⟨letters.get ⟨idx, by omega⟩, List.getElem?_eq_getElem (by omega)⟩
    rw [placeAttemptAux, hL] at h
    dsimp only at h
    split_ifs at h with hvp
    exact placeAttemptAux_inv letters n (idx+1) _ g (by omega) hlen
      (grid4WF_set2c ⟨hWF.1, hWF.2⟩ _ _ _)
      (tripletFreeBelow_step hWF hidx' hvp hTF) h

lemma emptyGrid_WF : grid4WF emptyGrid := by
  refine ⟨rfl, ?_⟩
  intro i rowB h
  rw [emptyGrid, List.getElem?_replicate] at h
  split_ifs at h
  cases h
  rfl

lemma placeAttempt_inv (letters : List Char) (g : List (List Char))
    (hlen : 16 ≤ letters.length) (h : placeAttempt letters = some g) :
    grid4WF g ∧ tripletFreeBelow g 16 :=
  placeAttemptAux_inv letters 16 0 emptyGrid g rfl hlen emptyGrid_WF
    (fun r c _ _ hlt => absurd hlt (by omega)) h

lemma placeLettersInGrid_inv :
    ∀ (arrangements : List (List Char)) (g : List (List Char)),
      (∀ ls ∈ arrangements, 16 ≤ ls.length) →
      placeLettersInGrid arrangements = some g →
      grid4WF g ∧ tripletFreeBelow g 16
  | [], _, _, h => by cases h
  | letters :: rest, g, hlen, h => by
    rw [placeLettersInGrid] at h
    cases hp : placeAttempt letters with
    | some grid =>
      rw [hp] at h
      cases h
      exact placeAttempt_inv letters g (hlen letters (List.mem_cons_self _ _)) hp
    | none =>
      rw [hp] at h
      exact placeLettersInGrid_inv rest g
        (fun ls hls => hlen ls (List.mem_cons_of_mem _ hls)) h

/-- **C5**: every grid produced by `generateGrid` is a fully populated 4×4
grid in which no row and no column contains three consecutive identical
letters, for any stream of sampled/shuffled 16-letter arrangements. -/
theorem generateGrid_no_triplets (arrangements : List (List Char)) (g : List (List Char))
    (hlen : ∀ ls ∈ arrangements, 16 ≤ ls.length)
    (h : generateGrid arrangements = some g) :
    (g.length = 4 ∧ ∀ rowL ∈ g, rowL.length = 4) ∧
    (∀ r c, r < 4 → c + 2 < 4 →
      ¬(cellOpt g r c = cellOpt g r (c+1) ∧ cellOpt g r (c+1) = cellOpt g r (c+2))) ∧
    (∀ r c, r + 2 < 4 → c < 4 →
      ¬(cellOpt g r c = cellOpt g (r+1) c ∧ cellOpt g (r+1) c = cellOpt g (r+2) c)) := by
  obtain ⟨⟨hlen4, hrow⟩, hTF⟩ := placeLettersInGrid_inv arrangements g hlen h
  refine ⟨⟨hlen4, ?_⟩, ?_, ?_⟩
  · intro rowL hm
    obtain ⟨i, hi⟩ := List.mem_iff_getElem?.mp hm
    exact hrow i rowL hi
  · intro r c hr hc hcontra
    have := (hTF r (c+2) hr (by omega) (by omega)).1 (by omega)
    simp only [Nat.add_sub_cancel, show c + 2 - 2 = c by omega, show c + 2 - 1 = c + 1 by omega] at this
    exact this ⟨hcontra.1.trans hcontra.2, hcontra.2⟩
  · intro r c hr hc hcontra
    have := (hTF (r+2) c (by omega) hc (by omega)).2 (by omega)
    simp only [show r + 2 - 2 = r by omega, show r + 2 - 1 = r + 1 by omega] at this
    exact this ⟨hcontra.1.trans hcontra.2, hcontra.2⟩

/-- Witness for C5: a concrete 16-letter arrangement placing validly. -/
theorem generateGrid_no_triplets_witness :
    (([['A','B','C','D'],['E','F','G','H'],['I','J','K','L'],['M','N','O','P']] :
        List (List Char)).length = 4 ∧
      ∀ rowL ∈ ([['A','B','C','D'],['E','F','G','H'],['I','J','K','L'],['M','N','O','P']] :
        List (List Char)), rowL.length = 4) ∧
    (∀ r c, r < 4 → c + 2 < 4 →
      ¬(cellOpt [['A','B','C','D'],['E','F','G','H'],['I','J','K','L'],['M','N','O','P']] r c
          = cellOpt [['A','B','C','D'],['E','F','G','H'],['I','J','K','L'],['M','N','O','P']] r (c+1) ∧
        cellOpt [['A','B','C','D'],['E','F','G','H'],['I','J','K','L'],['M','N','O','P']] r (c+1)
          = cellOpt [['A','B','C','D'],['E','F','G','H'],['I','J','K','L'],['M','N','O','P']] r (c+2))) ∧
    (∀ r c, r + 2 < 4 → c < 4 →
      ¬(cellOpt [['A','B','C','D'],['E','F','G','H'],['I','J','K','L'],['M','N','O','P']] r c
          = cellOpt [['A','B','C','D'],['E','F','G','H'],['I','J','K','L'],['M','N','O','P']] (r+1) c ∧
        cellOpt [['A','B','C','D'],['E','F','G','H'],['I','J','K','L'],['M','N','O','P']] (r+1) c
          = cellOpt [['A','B','C','D'],['E','F','G','H'],['I','J','K','L'],['M','N','O','P']] (r+2) c)) :=
  generateGrid_no_triplets ["ABCDEFGHIJKLMNOP".data] _ (by decide) (by rfl)

/-! ## The word search: backtracking discipline (claim C8) -/

lemma unmark_eq {vis : List (List Bool)} {visitedRow : List Bool} {r c : Nat}
    (st2v : List (List Bool))
    (hst : st2v = vis.set r (visitedRow.set c true))
    (hv : vis[r]? = some visitedRow)
    (hguard : visitedRow.getD c false = false) :
    st2v.set r ((st2v.getD r []).set c false) = vis := by
  have hrlen : r < vis.length := (List.getElem?_eq_some.mp hv).1
  subst hst
  rw [list_getD_set_self _ _ _ _ hrlen, List.set_set, List.set_set,
    list_set_getD_id _ _ _ hguard]
  exact list_set_of_getElem? _ _ _ hv

lemma findWordsFromCell_fst (scrabbleWords : List Word) (grid : List (List Char)) :
    ∀ (fuel : Nat) (row col : Int) (w : Word) (vis : List (List Bool)) (ws : List Word),
      (findWordsFromCell scrabbleWords grid fuel row col w vis ws).1 = vis := by
  intro fuel
  induction fuel with
  | zero => intro row col w vis ws; rfl
  | succ fuel ih =>
    intro row col w vis ws
    rw [findWordsFromCell]
    split_ifs with hb
    · rfl
    cases hg : grid[row.toNat]? with
    | none => cases hv : vis[row.toNat]? <;> rfl
    | some currentRow =>
      cases hv : vis[row.toNat]? with
      | none => rfl
      | some visitedRow =>
        dsimp only
        cases hc : currentRow[col.toNat]? with
        | none => rfl
        | some cell =>
          split_ifs with hvis
          · rfl
          · dsimp only
            refine unmark_eq _ ?_ hv (by simpa using hvis)
            exact list_foldl_inv
              (fun st : List (List Bool) × List Word =>
                st.1 = vis.set row.toNat (visitedRow.set col.toNat true))
              _ offsets _ rfl
              (fun s a _ hs => by
                dsimp only
                split_ifs with hcond
                · rw [ih]; exact hs
                · exact hs)

/-- **C8**: `findWordsFromCell` restores its visited state on return: for
every call, the returned visited matrix equals the one passed in (the
current cell's mark is cleared before the frame returns), so sibling
branches never see a cell as consumed. -/
theorem findWordsFromCell_restores_visited (scrabbleWords : List Word)
    (grid : List (List Char)) (fuel : Nat) (row col : Int) (currentWord : Word)
    (visited : List (List Bool)) (validWords : List Word) :
    (findWordsFromCell scrabbleWords grid fuel row col currentWord visited validWords).1
      = visited :=
  findWordsFromCell_fst scrabbleWords grid fuel row col currentWord visited validWords

/-! ## The word search: soundness of the found words (claims C1, C7) -/

lemma offsets_adjacent {row col : Int} {off : Int × Int} (hoff : off ∈ offsets) :
    adjacent8 ⟨row, col⟩ ⟨row + off.1, col + off.2⟩ = true := by
  fin_cases hoff <;>
    · simp only [adjacent8, Bool.and_eq_true, decide_eq_true_eq, Bool.not_eq_true',
        decide_eq_false_iff_not, GridPosition.mk.injEq, not_and]
      omega

lemma visited0_WF : visWF (List.replicate 4 (List.replicate 4 false)) := by
  refine ⟨by simp, ?_⟩
  intro i rowB h
  rw [List.getElem?_replicate] at h
  split_ifs at h
  cases h
  rfl

lemma visWF_set {vis : List (List Bool)} (hWF : visWF vis) {r : Nat} {rowB : List Bool}
    (hv : vis[r]? = some rowB) (c : Nat) (b : Bool) :
    visWF (vis.set r (rowB.set c b)) := by
  obtain ⟨hlen, hrow⟩ := hWF
  refine ⟨by simpa using hlen, ?_⟩
  intro i rowB' hi
  rcases eq_or_ne i r with rfl | hne
  · rw [List.getElem?_set_self (by simpa [hlen] using (List.getElem?_eq_some.mp hv).1)] at hi
    cases hi
    simpa using hrow i rowB hv
  · rw [List.getElem?_set_ne (Ne.symm hne)] at hi
    exact hrow i rowB' hi

lemma marked_of_getElem? {vis : List (List Bool)} {r : Nat} {rowB : List Bool}
    (hv : vis[r]? = some rowB) (p : GridPosition) (hr : p.row.toNat = r) :
    marked vis p = rowB.getD p.col.toNat false := by
  rw [marked, hr, list_getD_of_getElem? _ _ _ _ hv]

lemma PartialPath_extend {grid : List (List Char)} {vis : List (List Bool)}
    {pre : List GridPosition} {w : Word} {row col : Int}
    {currentRow : List Char} {visitedRow : List Bool} {cell : Char}
    (hWF : visWF vis)
    (hPP : PartialPath grid vis pre w row col)
    (hb0 : 0 ≤ row) (hb1 : row < 4) (hb2 : 0 ≤ col) (hb3 : col < 4)
    (hg : grid[row.toNat]? = some currentRow)
    (hv : vis[row.toNat]? = some visitedRow)
    (hc : currentRow[col.toNat]? = some cell)
    (hvis : visitedRow.getD col.toNat false = false) :
    goodPath grid (pre ++ [⟨row, col⟩]) (w ++ [cell]) ∧
    (∀ off ∈ offsets,
      PartialPath grid (vis.set row.toNat (visitedRow.set col.toNat true))
        (pre ++ [⟨row, col⟩]) (w ++ [cell]) (row + off.1) (col + off.2)) ∧
    visWF (vis.set row.toNat (visitedRow.set col.toNat true)) := by
  obtain ⟨hspell, hnodup, hchain, hbounds, hmark, hlast⟩ := hPP
  have hrowlen : visitedRow.length = 4 := hWF.2 _ _ hv
  have hrlt : row.toNat < vis.length := (List.getElem?_eq_some.mp hv).1
  have hclt : col.toNat < visitedRow.length := by omega
  have hnotin : (⟨row, col⟩ : GridPosition) ∉ pre := by
    intro hmem
    have h1 := hmark _ hmem
    rw [marked_of_getElem? hv _ rfl] at h1
    rw [show (⟨row, col⟩ : GridPosition).col = col from rfl, hvis] at h1
    cases h1
  have hcell : cellOptI grid row col = some cell := by
    rw [cellOptI, if_pos ⟨hb0, hb2⟩, cellOpt, hg]
    exact hc
  have hnodup' : (pre ++ [(⟨row, col⟩ : GridPosition)]).Nodup := by
    have h' : (pre ++ [(⟨row, col⟩ : GridPosition)]).Nodup
        ↔ pre.Nodup ∧ (⟨row, col⟩ : GridPosition) ∉ pre := by
      simp [List.nodup_append]
    exact h'.mpr ⟨hnodup, hnotin⟩
  have hchain' : List.Chain' (fun p q => adjacent8 p q = true)
      (pre ++ [(⟨row, col⟩ : GridPosition)]) := by
    have h' : List.Chain' (fun p q => adjacent8 p q = true)
          (pre ++ [(⟨row, col⟩ : GridPosition)])
        ↔ List.Chain' (fun p q => adjacent8 p q = true) pre
          ∧ ∀ y ∈ pre.getLast?, adjacent8 y ⟨row, col⟩ = true := by
      simp [List.chain'_append]
    refine h'.mpr ⟨hchain, ?_⟩
    intro y hy
    rcases hlast with rfl | ⟨l, hl, hadj⟩
    · simp at hy
    · rw [hl] at hy
      have hyl : l = y := by simpa using hy
      subst hyl
      exact hadj
  have hbounds' : ∀ p ∈ pre ++ [(⟨row, col⟩ : GridPosition)], inGrid4 p = true := by
    intro p hp
    rcases List.mem_append.mp hp with h' | h'
    · exact hbounds p h'
    · have : p = ⟨row, col⟩ := by simpa using h'
      subst this
      simp only [inGrid4, Bool.and_eq_true, decide_eq_true_eq]
      omega
  have hspell' : spellsOut grid (pre ++ [(⟨row, col⟩ : GridPosition)]) (w ++ [cell]) := by
    rw [spellsOut, List.map_append, List.map_append]
    rw [spellsOut] at hspell
    rw [hspell]
    simp [hcell]
  have hmark1 : ∀ p ∈ pre ++ [(⟨row, col⟩ : GridPosition)],
      marked (vis.set row.toNat (visitedRow.set col.toNat true)) p = true := by
    intro p hp
    rcases List.mem_append.mp hp with h' | h'
    · have hpb := hbounds p h'
      simp only [inGrid4, Bool.and_eq_true, decide_eq_true_eq] at hpb
      have hpe : p ≠ ⟨row, col⟩ := fun he => hnotin (he ▸ h')
      have hor : p.row.toNat ≠ row.toNat ∨ p.col.toNat ≠ col.toNat := by
        by_contra hcon
        push_neg at hcon
        refine hpe ?_
        have h1 : p.row = row := by omega
        have h2 : p.col = col := by omega
        cases p
        simp_all
      rcases eq_or_ne p.row.toNat row.toNat with he | hne
      · have hcne : col.toNat ≠ p.col.toNat := by
          rcases hor with h' | h'
          · exact absurd he h'
          · exact Ne.symm h'
        have h2 := hmark p h'
        rw [marked_of_getElem? hv p he] at h2
        rw [marked, he, list_getD_set_self _ _ _ _ hrlt,
          list_getD_set_ne _ _ _ _ _ hcne]
        exact h2
      · rw [marked, list_getD_set_ne _ _ _ _ _ (Ne.symm hne)]
        exact hmark p h'
    · have : p = ⟨row, col⟩ := by simpa using h'
      subst this
      rw [marked_of_getElem?
          (show (vis.set row.toNat (visitedRow.set col.toNat true))[row.toNat]?
              = some (visitedRow.set col.toNat true) from
            List.getElem?_set_self hrlt) _ rfl]
      exact list_getD_set_self _ _ _ _ hclt
  have hgood : goodPath grid (pre ++ [(⟨row, col⟩ : GridPosition)]) (w ++ [cell]) :=
    ⟨by simp, hnodup', hchain', hbounds', hspell'⟩
  refine ⟨hgood, ?_, visWF_set hWF hv _ _⟩
  intro off hoff
  exact ⟨hspell', hnodup', hchain', hbounds', hmark1,
    Or.inr ⟨⟨row, col⟩, List.getLast?_concat pre, offsets_adjacent hoff⟩⟩

lemma findWordsFromCell_sound (scrabbleWords : List Word) (grid : List (List Char)) :
    ∀ (fuel : Nat) (row col : Int) (w : Word) (vis : List (List Bool)) (ws : List Word)
      (pre : List GridPosition),
      visWF vis → PartialPath grid vis pre w row col →
      allOK scrabbleWords grid ws →
      allOK scrabbleWords grid (findWordsFromCell scrabbleWords grid fuel row col w vis ws).2 := by
  intro fuel
  induction fuel with
  | zero => intro _ _ _ _ ws _ _ _ hok; exact hok
  | succ fuel ih =>
    intro row col w vis ws pre hWF hPP hok
    rw [findWordsFromCell]
    split_ifs with hb
    · exact hok
    cases hg : grid[row.toNat]? with
    | none => cases hv : vis[row.toNat]? <;> exact hok
    | some currentRow =>
      cases hv : vis[row.toNat]? with
      | none => exact hok
      | some visitedRow =>
        dsimp only
        cases hc : currentRow[col.toNat]? with
        | none => exact hok
        | some cell =>
          split_ifs with hvis
          · exact hok
          dsimp only
          simp only [Bool.or_eq_true, decide_eq_true_eq, not_or] at hb
          obtain ⟨hb0, hb1, hb2, hb3⟩ : 0 ≤ row ∧ row < 4 ∧ 0 ≤ col ∧ col < 4 := by omega
          have hvis' : visitedRow.getD col.toNat false = false := by simpa using hvis
          obtain ⟨hgood, hPPn, hWF1⟩ :=
            PartialPath_extend hWF hPP hb0 hb1 hb2 hb3 hg hv hc hvis'
          refine (list_foldl_inv
            (fun st : List (List Bool) × List Word =>
              st.1 = vis.set row.toNat (visitedRow.set col.toNat true)
                ∧ allOK scrabbleWords grid st.2)
            _ offsets _ ⟨rfl, ?_⟩ ?_).2
          · -- the (possibly) extended word set still satisfies the invariant
            split_ifs with hcondw
            · intro u hu
              rw [addWord] at hu
              split_ifs at hu with hdup
              · exact hok u hu
              · rcases List.mem_append.mp hu with h' | h'
                · exact hok u h'
                · have hu' : u = w ++ [cell] := by simpa using h'
                  subst hu'
                  simp only [Bool.and_eq_true, isValidWord, decide_eq_true_eq] at hcondw
                  exact ⟨hcondw.2.2, hcondw.1, pre ++ [⟨row, col⟩], hgood⟩
            · exact hok
          · intro s off hoff hs
            dsimp only
            split_ifs with hcond
            · refine ⟨?_, ?_⟩
              · rw [findWordsFromCell_fst]
                exact hs.1
              · refine ih (row + off.1) (col + off.2) (w ++ [cell]) s.1 s.2
                  (pre ++ [⟨row, col⟩]) ?_ ?_ hs.2
                · rw [hs.1]; exact hWF1
                · rw [hs.1]; exact hPPn off hoff
            · exact hs

lemma findValidWords_sound (scrabbleWords : List Word) (grid : List (List Char)) :
    allOK scrabbleWords grid (findValidWords scrabbleWords grid) := by
  rw [findValidWords]
  refine (list_foldl_inv
    (fun st : List (List Bool) × List Word =>
      st.1 = List.replicate 4 (List.replicate 4 false) ∧ allOK scrabbleWords grid st.2)
    _ (List.range 4) _ ⟨rfl, fun u hu => absurd hu (List.not_mem_nil u)⟩ ?_).2
  intro s row _ hs
  refine list_foldl_inv
    (fun st : List (List Bool) × List Word =>
      st.1 = List.replicate 4 (List.replicate 4 false) ∧ allOK scrabbleWords grid st.2)
    _ (List.range 4) s hs ?_
  intro s' col _ hs'
  dsimp only
  split_ifs with hcell
  · refine ⟨?_, ?_⟩
    · rw [findWordsFromCell_fst]
      exact hs'.1
    · refine findWordsFromCell_sound scrabbleWords grid 16 (Int.ofNat row) (Int.ofNat col)
        [] s'.1 s'.2 [] ?_ ?_ hs'.2
      · rw [hs'.1]; exact visited0_WF
      · exact ⟨rfl, List.nodup_nil, List.chain'_nil,
          fun p hp => absurd hp (List.not_mem_nil p),
          fun p hp => absurd hp (List.not_mem_nil p), Or.inl rfl⟩
  · exact hs'

/-- **C1**: every word in the word set computed by `findValidWords` is in
the Dictionary (after uppercasing, exactly as the source checks it), has
length at least 3, and is spelled by at least one path of 8-adjacent,
pairwise-distinct, in-bounds cells of the grid. -/
theorem findValidWords_members_valid (scrabbleWords : List Word)
    (grid : List (List Char)) (w : Word)
    (h : w ∈ findValidWords scrabbleWords grid) :
    scrabbleWords.contains (toUpperW w) = true ∧ 3 ≤ w.length ∧
      ∃ path, goodPath grid path w :=
  findValidWords_sound scrabbleWords grid w h

set_option maxRecDepth 40000 in
/-- Witness for C1 at a concrete grid and dictionary. -/
theorem findValidWords_members_valid_witness :
    "CAT".data ∈ findValidWords ["CAT".data] [['C','A','T']] ∧
    ((["CAT".data] : List Word).contains (toUpperW "CAT".data) = true
      ∧ 3 ≤ "CAT".data.length
      ∧ ∃ path, goodPath [['C','A','T']] path "CAT".data) :=
  ⟨by decide, findValidWords_members_valid ["CAT".data] [['C','A','T']] "CAT".data (by decide)⟩

lemma findValidWords_empty_dict (grid : List (List Char)) :
    findValidWords [] grid = [] := by
  refine List.eq_nil_iff_forall_not_mem.mpr ?_
  intro w hw
  have h1 := (findValidWords_sound [] grid w hw).1
  cases h1

/-- **C7** (supporting theorem for the code bug): with an empty dictionary
(e.g. a blank `scrabble.txt`) every candidate grid yields an empty word
set, so every draw is rejected: `generateDailyPuzzle` succeeds for *no*
finite sequence of draws, i.e. the source's uncapped recursive retry never
terminates on such input — there is no iteration cap or typed
generation-failure error in the code. -/
theorem generateDailyPuzzle_no_cap :
    ∀ draws : List (List (List Char)), generateDailyPuzzle [] draws = none := by
  intro draws
  induction draws with
  | nil => rfl
  | cons g rest ih =>
    rw [generateDailyPuzzle, findValidWords_empty_dict, if_pos (by simp)]
    exact ih
